import Mathlib

/-!
Verification of the yacht reconciliation-controller engine (dixudx/yacht).

The development shallowly embeds `yacht.go` (the Controller façade, its
builder methods, the enqueue pipeline, the worker item-processing routine
and the run/Run entry points) as executable Lean definitions, and proves
the behavioural claims of the specification about them.

Modelling conventions:
- Go `panic` in a builder or in `Run` is modelled as `Except.error msg`;
  a normal return is `Except.ok`.
- Go `context.Context` is modelled by `GoContext`, keeping only the one
  observable aspect the code uses: whether `ctx.Done()` is closed.
- Go `error` values are modelled by `GoError`, keeping only the aspects
  the code inspects: the not-found classification and a message.
- The rate-limiting work queue is an external collaborator
  (`k8s.io/client-go/util/workqueue`); the routing decisions of
  `processNextWorkItem` are recorded as a trace of `QueueAction`s, and
  the queue state kept on the controller is the minimal dedup/shutdown
  model described by the specification.
- `time.Duration` values are modelled as `Nat` (nanosecond counts).
-/

/-- Models the single observable aspect of a Go `context.Context` used by
the code: whether the `Done` channel is closed. -/
structure GoContext where
  done : Bool
deriving DecidableEq

/-- Models a Go `error` value, keeping the aspects the code inspects:
whether `apierrors.IsNotFound` reports it as a not-found-class error,
plus a message. -/
structure GoError where
  notFound : Bool
  msg : String
deriving DecidableEq

/-- Modelled from the spec: `apierrors.IsNotFound` of the external
apimachinery library classifies an error as not-found-class. -/
def IsNotFound (e : GoError) : Bool :=
  e.notFound

/-- The `EnqueueFunc` type of the source: derives a work-item key from a
raw object, or fails. -/
abbrev EnqueueFunc (Obj Key : Type) : Type := Obj → Except GoError Key

/-- The `EnqueueFilterFunc` type of the source: decides admission of a
change event given the old and new objects (either may be `nil`). -/
abbrev EnqueueFilterFunc (Obj : Type) : Type :=
  Option Obj → Option Obj → Bool × Option GoError

/-- The legacy `HandlerFunc` type of the source: processes a key and
returns an optional requeue delay and an optional error. -/
abbrev HandlerFunc (Key : Type) : Type := Key → Option Nat × Option GoError

/-- The `HandlerContextFunc` type of the source: like `HandlerFunc` but
receives the cancellation context. -/
abbrev HandlerContextFunc (Key : Type) : Type :=
  GoContext → Key → Option Nat × Option GoError

/-- The `cache.DeltaType` operation tags used by
`applyEnqueueFilterFunc` (external client-go type; the source switches
over `Added`, `Updated`, `Deleted` with a default branch). -/
inductive DeltaType where
  | added
  | updated
  | deleted
  | replaced
  | sync
deriving DecidableEq

/-- Modelled from the spec: the state of the external rate-limiting work
queue that the claims observe, namely the deduplicating set of pending
keys (admissions are no-ops once shut down or while the key is pending)
and the terminal shutdown flag. -/
structure QueueState (Key : Type) where
  dirty : List Key
  shutDown : Bool

/-- Modelled from the spec: `queue.Add` inserts the key unless the queue
is shutting down or the key is already pending (dedup). -/
def QueueState.add [DecidableEq Key] (q : QueueState Key) (k : Key) : QueueState Key :=
  if q.shutDown then q
  else if q.dirty.contains k then q
  else { q with dirty := q.dirty ++ [k] }

/-- Modelled from the spec: `queue.ShutDown` sets the terminal flag. -/
def QueueState.shutDownNow (q : QueueState Key) : QueueState Key :=
  { q with shutDown := true }

/-- The `Controller` struct of `yacht.go`. Function-valued fields keep
their source types; `le` records whether a `LeaderElector` was
configured; `onceDone` models the consumed state of the `sync.Once`
guard; `runCount` is a ghost counter of entries into the protected run
section used to state the once-only property. -/
structure Controller (Obj Key : Type) where
  name : String
  workers : Int
  enqueueFunc : EnqueueFunc Obj Key
  enqueueFilterFunc : Option (EnqueueFilterFunc Obj)
  queue : QueueState Key
  informersSynced : List (Nat → Bool)
  handlerContextFunc : Option (HandlerContextFunc Key)
  le : Bool
  runFlag : Bool
  onceDone : Bool
  runCount : Nat

/-- A Kubernetes object as far as the default key function observes it:
its metadata namespace and name. -/
structure K8sObject where
  nspace : String
  name : String
deriving DecidableEq

/-- Modelled from the spec: `cache.MetaNamespaceKeyFunc` of the external
client-go library derives the namespace/name key using the format
namespace, slash, name, unless the namespace is empty, then just the
name. -/
def MetaNamespaceKeyFunc (obj : K8sObject) : Except GoError String :=
  if obj.nspace = "" then .ok obj.name
  else .ok (obj.nspace ++ "/" ++ obj.name)

/-- `DefaultEnqueueFunc` of the source: uses the namespaced key as its
key function. -/
def DefaultEnqueueFunc : EnqueueFunc K8sObject String :=
  fun obj => MetaNamespaceKeyFunc obj

/-- `NewController` of the source: default 2 workers, default key
function, fresh rate-limiting queue, empty cache-synced list. -/
def NewController (name : String) : Controller K8sObject String :=
  { name := name
    workers := 2
    enqueueFunc := DefaultEnqueueFunc
    enqueueFilterFunc := none
    queue := { dirty := [], shutDown := false }
    informersSynced := []
    handlerContextFunc := none
    le := false
    runFlag := false
    onceDone := false
    runCount := 0 }

/-- `WithWorkers` of the source: panics when the controller is running,
panics on a negative worker count, otherwise sets the count. -/
def Controller.WithWorkers (c : Controller Obj Key) (workers : Int) :
    Except String (Controller Obj Key) :=
  if c.runFlag then
    .error "can not mutate workers when controller is running"
  else if workers < 0 then
    .error "can not set negative workers"
  else
    .ok { c with workers := workers }

/-- `WithQueue` of the source: panics when the controller is running,
otherwise replaces the queue. -/
def Controller.WithQueue (c : Controller Obj Key) (queue : QueueState Key) :
    Except String (Controller Obj Key) :=
  if c.runFlag then
    .error "can not mutate queue when controller is running"
  else
    .ok { c with queue := queue }

/-- `WithEnqueueFilterFunc` of the source: panics when the controller is
running, otherwise sets the filter (a `nil` argument clears it, the
source has no nil-guard here). -/
def Controller.WithEnqueueFilterFunc (c : Controller Obj Key)
    (enqueueFilterFunc : Option (EnqueueFilterFunc Obj)) :
    Except String (Controller Obj Key) :=
  if c.runFlag then
    .error "can not mutate enqueueFilterFunc when controller is running"
  else
    .ok { c with enqueueFilterFunc := enqueueFilterFunc }

/-- `WithEnqueueFunc` of the source: panics when the controller is
running; a non-nil argument replaces the key function, a nil argument
leaves it unchanged. -/
def Controller.WithEnqueueFunc (c : Controller Obj Key)
    (enqueueFunc : Option (EnqueueFunc Obj Key)) :
    Except String (Controller Obj Key) :=
  if c.runFlag then
    .error "can not mutate enqueueFunc when controller is running"
  else
    match enqueueFunc with
    | some f => .ok { c with enqueueFunc := f }
    | none => .ok c

/-- The closure built inside `WithHandlerFunc` of the source: adapts a
legacy handler by selecting on `ctx.Done()` with a default branch — when
the context is already cancelled it returns the zero values
`(nil, nil)` without calling the legacy handler. -/
def adaptHandlerFunc (handlerFunc : HandlerFunc Key) : HandlerContextFunc Key :=
  fun ctx key =>
    if ctx.done then (none, none)
    else handlerFunc key

/-- `WithHandlerFunc` of the source (deprecated variant): panics when the
controller is running; a non-nil argument installs the adapted handler,
a nil argument leaves the field unchanged. -/
def Controller.WithHandlerFunc (c : Controller Obj Key)
    (handlerFunc : Option (HandlerFunc Key)) :
    Except String (Controller Obj Key) :=
  if c.runFlag then
    .error "can not mutate handlerContextFunc when controller is running"
  else
    match handlerFunc with
    | some f => .ok { c with handlerContextFunc := some (adaptHandlerFunc f) }
    | none => .ok c

/-- `WithHandlerContextFunc` of the source: panics when the controller is
running; a non-nil argument replaces the handler, a nil argument leaves
the field unchanged. -/
def Controller.WithHandlerContextFunc (c : Controller Obj Key)
    (handlerContextFunc : Option (HandlerContextFunc Key)) :
    Except String (Controller Obj Key) :=
  if c.runFlag then
    .error "can not mutate handlerContextFunc when controller is running"
  else
    match handlerContextFunc with
    | some f => .ok { c with handlerContextFunc := some f }
    | none => .ok c

/-- Modelled from the spec: the validation performed by the external
`leaderelection.NewLeaderElector` on the lease timing configuration
(invalid lease setup is a fatal configuration error). -/
def newLeaderElectorValid (leaseDuration renewDeadline retryPeriod : Nat) : Bool :=
  decide (renewDeadline < leaseDuration) &&
  decide (retryPeriod < renewDeadline) &&
  decide (0 < retryPeriod)

/-- `WithLeaderElection` of the source: panics when the controller is
running; panics when `NewLeaderElector` rejects the configuration;
otherwise records the leader elector. -/
def Controller.WithLeaderElection (c : Controller Obj Key)
    (leaseDuration renewDeadline retryPeriod : Nat) :
    Except String (Controller Obj Key) :=
  if c.runFlag then
    .error "can not mutate leaderElection when controller is running"
  else if newLeaderElectorValid leaseDuration renewDeadline retryPeriod then
    .ok { c with le := true }
  else
    .error "failed to create a LeaderElector for controller"

/-- `WithCacheSynced` of the source: appends the given cache-synced
predicates. The source performs no running-state check here. -/
def Controller.WithCacheSynced (c : Controller Obj Key)
    (informersSynced : List (Nat → Bool)) : Controller Obj Key :=
  { c with informersSynced := c.informersSynced ++ informersSynced }

/-- `Enqueue` of the source: applies the key function; on error the
error is handed to `utilruntime.HandleError` (the reported error is the
second component) and the object is dropped; otherwise the key is added
to the queue. -/
def Controller.Enqueue [DecidableEq Key] (c : Controller Obj Key) (obj : Obj) :
    Controller Obj Key × Option GoError :=
  match c.enqueueFunc obj with
  | .error err => (c, some err)
  | .ok key => ({ c with queue := c.queue.add key }, none)

/-- `applyEnqueueFilterFunc` of the source. With no filter configured it
admits every event. With a filter it invokes it once with the arguments
dictated by the operation (add: nil old and the new object; delete: the
old object and nil new; update: both; the default branch of the switch
invokes nothing and rejects), rejects when the filter errors and
otherwise follows the filter's verdict. The second component records
the argument pairs of the filter invocations performed. -/
def Controller.applyEnqueueFilterFunc (c : Controller Obj Key)
    (oldObj newObj : Option Obj) (operation : DeltaType) :
    Bool × List (Option Obj × Option Obj) :=
  match c.enqueueFilterFunc with
  | none => (true, [])
  | some f =>
    match operation with
    | .added =>
      match f none newObj with
      | (_, some _) => (false, [(none, newObj)])
      | (ok, none) => (ok, [(none, newObj)])
    | .deleted =>
      match f oldObj none with
      | (_, some _) => (false, [(oldObj, none)])
      | (ok, none) => (ok, [(oldObj, none)])
    | .updated =>
      match f oldObj newObj with
      | (_, some _) => (false, [(oldObj, newObj)])
      | (ok, none) => (ok, [(oldObj, newObj)])
    | _ => (false, [])

/-- The `AddFunc` hook of `DefaultResourceEventHandlerFuncs`: applies
the filter for an add event and enqueues the object when admitted.
Returns the resulting controller, the filter invocations performed,
and whether the event was admitted. -/
def Controller.OnAdd [DecidableEq Key] (c : Controller Obj Key) (obj : Obj) :
    Controller Obj Key × List (Option Obj × Option Obj) × Bool :=
  match c.applyEnqueueFilterFunc none (some obj) .added with
  | (true, calls) => ((c.Enqueue obj).1, calls, true)
  | (false, calls) => (c, calls, false)

/-- The `UpdateFunc` hook of `DefaultResourceEventHandlerFuncs`: applies
the filter for an update event and enqueues the new object when
admitted. -/
def Controller.OnUpdate [DecidableEq Key] (c : Controller Obj Key) (oldObj newObj : Obj) :
    Controller Obj Key × List (Option Obj × Option Obj) × Bool :=
  match c.applyEnqueueFilterFunc (some oldObj) (some newObj) .updated with
  | (true, calls) => ((c.Enqueue newObj).1, calls, true)
  | (false, calls) => (c, calls, false)

/-- The `DeleteFunc` hook of `DefaultResourceEventHandlerFuncs`: applies
the filter for a delete event and enqueues the (old) object when
admitted. -/
def Controller.OnDelete [DecidableEq Key] (c : Controller Obj Key) (obj : Obj) :
    Controller Obj Key × List (Option Obj × Option Obj) × Bool :=
  match c.applyEnqueueFilterFunc (some obj) none .deleted with
  | (true, calls) => ((c.Enqueue obj).1, calls, true)
  | (false, calls) => (c, calls, false)

/-- The calls `processNextWorkItem` makes on its collaborators, in
order: work-queue operations and the `utilruntime.HandleError` report. -/
inductive QueueAction (Key : Type) where
  | forget (k : Key)
  | addAfter (k : Key) (delay : Nat)
  | addRateLimited (k : Key)
  | reportError (e : GoError)
  | done (k : Key)
deriving DecidableEq

/-- `processNextWorkItem` of the source, acting on the item handed out
by `queue.Get` (`none` models the shutting-down result, on which the
routine returns `false` at once). The returned trace lists the queue
operations and error reports in program order; the deferred
`queue.Done` is last. -/
def processNextWorkItem (handlerContextFunc : HandlerContextFunc Key)
    (ctx : GoContext) (got : Option Key) : Bool × List (QueueAction Key) :=
  match got with
  | none => (false, [])
  | some item =>
    match handlerContextFunc ctx item with
    | (requeueAfter, none) =>
      match requeueAfter with
      | some d => (true, [.forget item, .addAfter item d, .done item])
      | none => (true, [.forget item, .done item])
    | (requeueAfter, some err) =>
      if IsNotFound err then
        (true, [.forget item, .done item])
      else
        match requeueAfter with
        | some d => (true, [.reportError err, .addAfter item d, .done item])
        | none => (true, [.reportError err, .addRateLimited item, .done item])

/-- Modelled from the spec: the external `cache.WaitForNamedCacheSync`
polls all predicates until all report true or the cancellation fires
first. `fuel` is the number of polling steps remaining before the
cancellation fires; `t` is the current step. -/
def waitForCacheSync (preds : List (Nat → Bool)) : Nat → Nat → Bool
  | 0, _ => false
  | fuel + 1, t =>
    if preds.all fun p => p t then true
    else waitForCacheSync preds fuel (t + 1)

/-- The observable events of the protected run section. -/
inductive RunEvent where
  | startWorker (i : Nat)
  | leaderElectionLoop
deriving DecidableEq

/-- The lower-case `run` of the source (the protected run section): sets
the running flag, waits for all caches to sync (aborting on
cancellation), then launches one worker goroutine per configured worker
and blocks until cancellation. `cancelAt` is the polling step at which
the context is cancelled. The ghost `runCount` is incremented on
entry. -/
def Controller.run (c : Controller Obj Key) (cancelAt : Nat) :
    Controller Obj Key × List RunEvent :=
  let c1 := { c with runFlag := true, runCount := c.runCount + 1 }
  if waitForCacheSync c1.informersSynced cancelAt 0 then
    (c1, (List.range c1.workers.toNat).map RunEvent.startWorker)
  else
    (c1, [])

/-- The deferred `queue.ShutDown` performed by `Run`. -/
def Controller.shutQueue (c : Controller Obj Key) : Controller Obj Key :=
  { c with queue := c.queue.shutDownNow }

/-- `Run` of the source: panics when no handler was set (checked on
every call, before the once-guard); the `sync.Once` body runs the
leader-election loop when configured, else the protected section
directly, and only on the first call; the deferred `queue.ShutDown`
runs on every completed call. -/
def Controller.Run (c : Controller Obj Key) (cancelAt : Nat) :
    Except String (Controller Obj Key × List RunEvent) :=
  if c.handlerContextFunc.isNone then
    .error "please set handlerContextFunc for controller"
  else if c.onceDone then
    .ok (c.shutQueue, [])
  else if c.le then
    .ok ({ c with onceDone := true }.shutQueue, [RunEvent.leaderElectionLoop])
  else
    let r := Controller.run { c with onceDone := true } cancelAt
    .ok (r.1.shutQueue, r.2)

/-- A builder or `Run` invocation that panics in the source is an
`Except.error` in the model. -/
def isPanic {α : Type} : Except String α → Bool
  | .error _ => true
  | .ok _ => false

theorem shutQueue_shutQueue (c : Controller Obj Key) :
    c.shutQueue.shutQueue = c.shutQueue := by
  cases c with
  | mk name workers ef eff q inf hcf le rf od rc =>
    cases q
    simp [Controller.shutQueue, QueueState.shutDownNow]

/-- Claim C1: for every dequeued work item, `processNextWorkItem` routes
the handler outcome per the five-row table — success: Forget only;
success with delay: Forget then AddAfter; not-found error: Forget only;
other error with delay: AddAfter (no Forget); other error without
delay: AddRateLimited — and `Done` is called last in every case. -/
theorem processNextWorkItem_outcome_table {Key : Type}
    (hc : HandlerContextFunc Key) (ctx : GoContext) (item : Key)
    (ra : Option Nat) (err : Option GoError)
    (h : hc ctx item = (ra, err)) :
    (err = none → ra = none →
      processNextWorkItem hc ctx (some item) =
        (true, [.forget item, .done item])) ∧
    (∀ d, err = none → ra = some d →
      processNextWorkItem hc ctx (some item) =
        (true, [.forget item, .addAfter item d, .done item])) ∧
    (∀ e, err = some e → IsNotFound e = true →
      processNextWorkItem hc ctx (some item) =
        (true, [.forget item, .done item])) ∧
    (∀ e d, err = some e → IsNotFound e = false → ra = some d →
      processNextWorkItem hc ctx (some item) =
        (true, [.reportError e, .addAfter item d, .done item])) ∧
    (∀ e, err = some e → IsNotFound e = false → ra = none →
      processNextWorkItem hc ctx (some item) =
        (true, [.reportError e, .addRateLimited item, .done item])) := by
  refine ⟨?_, ?_, ?_, ?_, ?_⟩ <;> intros <;>
    simp_all [processNextWorkItem, h]

/-- Witness for C1 at a concrete handler: success with no delay routes
to Forget then Done. -/
theorem processNextWorkItem_outcome_table_witness :
    processNextWorkItem
        (fun _ (_ : Nat) => ((none : Option Nat), (none : Option GoError)))
        ⟨false⟩ (some 5) =
      (true, [.forget 5, .done 5]) :=
  (processNextWorkItem_outcome_table
    (fun _ (_ : Nat) => ((none : Option Nat), (none : Option GoError)))
    ⟨false⟩ 5 none none rfl).1 rfl rfl

/-- Claim C5: `Enqueue` surfaces a key-derivation error to the
error-reporting collaborator and drops the object leaving the queue
unchanged (and returns normally — the model's total return type has no
fatal outcome); on success the derived key is added to the queue. -/
theorem enqueue_error_drops_success_adds {Obj Key : Type} [DecidableEq Key]
    (c : Controller Obj Key) (obj : Obj) :
    (∀ e, c.enqueueFunc obj = .error e → c.Enqueue obj = (c, some e)) ∧
    (∀ k, c.enqueueFunc obj = .ok k →
      c.Enqueue obj = ({ c with queue := c.queue.add k }, none)) := by
  constructor <;> intro x hx <;> simp [Controller.Enqueue, hx]

/-- Witness for C5 at a concrete controller and object: the default key
function derives the namespaced key, which lands in the queue. -/
theorem enqueue_error_drops_success_adds_witness :
    (NewController "w").enqueueFunc ⟨"ns", "a"⟩ = .ok "ns/a" ∧
    ((NewController "w").Enqueue ⟨"ns", "a"⟩).1.queue.dirty = ["ns/a"] := by
  refine ⟨rfl, ?_⟩
  rw [(enqueue_error_drops_success_adds (NewController "w") ⟨"ns", "a"⟩).2 "ns/a" rfl]
  rfl

/-- Claim C8: on a not-yet-running controller, passing a nil function to
`WithEnqueueFunc`, `WithHandlerContextFunc` or `WithHandlerFunc` leaves
the controller (in particular the previously configured function)
unchanged and returns it, instead of clearing the field. -/
theorem builder_nil_function_noop {Obj Key : Type}
    (c : Controller Obj Key) (h : c.runFlag = false) :
    c.WithEnqueueFunc none = .ok c ∧
    c.WithHandlerContextFunc none = .ok c ∧
    c.WithHandlerFunc none = .ok c := by
  simp [Controller.WithEnqueueFunc, Controller.WithHandlerContextFunc,
    Controller.WithHandlerFunc, h]

/-- Witness for C8 at a fresh controller. -/
theorem builder_nil_function_noop_witness :
    (NewController "w").runFlag = false ∧
    (NewController "w").WithEnqueueFunc none = .ok (NewController "w") ∧
    (NewController "w").WithHandlerContextFunc none = .ok (NewController "w") ∧
    (NewController "w").WithHandlerFunc none = .ok (NewController "w") :=
  ⟨rfl, builder_nil_function_noop (NewController "w") rfl⟩

/-- Claim C9: installing a legacy handler adapts it so that, on a
context whose Done channel is already closed, the adapted handler
returns the zero values without consulting the legacy handler (the
result is the same for every legacy handler), and the worker then
forgets the item and does not re-enqueue it (trace: Forget, Done). -/
theorem legacy_handler_cancelled_forgets {Obj Key : Type}
    (c : Controller Obj Key) (hf : HandlerFunc Key) (ctx : GoContext) (k : Key)
    (hrun : c.runFlag = false) (hctx : ctx.done = true) :
    c.WithHandlerFunc (some hf) =
      .ok { c with handlerContextFunc := some (adaptHandlerFunc hf) } ∧
    adaptHandlerFunc hf ctx k = (none, none) ∧
    (∀ hf', adaptHandlerFunc hf ctx k = adaptHandlerFunc hf' ctx k) ∧
    processNextWorkItem (adaptHandlerFunc hf) ctx (some k) =
      (true, [.forget k, .done k]) := by
  refine ⟨?_, ?_, ?_, ?_⟩ <;>
    simp [Controller.WithHandlerFunc, adaptHandlerFunc,
      processNextWorkItem, hrun, hctx]

/-- Witness for C9 at a concrete legacy handler that would report an
error and request a requeue: on a cancelled context the item is still
forgotten. -/
theorem legacy_handler_cancelled_forgets_witness :
    GoContext.done ⟨true⟩ = true ∧
    processNextWorkItem
        (adaptHandlerFunc fun (_ : String) => (some 7, some ⟨false, "boom"⟩))
        ⟨true⟩ (some "k") =
      (true, [.forget "k", .done "k"]) :=
  ⟨rfl,
    (legacy_handler_cancelled_forgets (NewController "w")
      (fun _ => (some 7, some ⟨false, "boom"⟩)) ⟨true⟩ "k" rfl rfl).2.2.2⟩

/-- Counterexample to C2 as stated: `WithCacheSynced` performs no
running-state check in the source — called on a controller that is
already running, it returns normally (it is a total function into
`Controller`, with no panic outcome) and appends the predicate. -/
theorem withCacheSynced_unguarded_cex :
    (Controller.WithCacheSynced
        { NewController "c" with runFlag := true } [fun _ => true]).runFlag = true ∧
    (Controller.WithCacheSynced
        { NewController "c" with runFlag := true } [fun _ => true]).informersSynced.length = 1 :=
  ⟨rfl, rfl⟩

/-- Claim C2 (amended): every builder method except `WithCacheSynced` —
worker count, queue, enqueue filter, enqueue key function, both handler
signatures, leader election — fails fatally when the controller is
running; `WithCacheSynced` is not guarded and appends the predicates
even while running; and `WithWorkers` fails fatally on any negative
count regardless of run state. -/
theorem builders_fail_when_running {Obj Key : Type}
    (c : Controller Obj Key) (h : c.runFlag = true)
    (n : Int) (q : QueueState Key) (ff : Option (EnqueueFilterFunc Obj))
    (ef : Option (EnqueueFunc Obj Key)) (hf : Option (HandlerFunc Key))
    (hcf : Option (HandlerContextFunc Key)) (a b d : Nat)
    (ps : List (Nat → Bool)) :
    isPanic (c.WithWorkers n) = true ∧
    isPanic (c.WithQueue q) = true ∧
    isPanic (c.WithEnqueueFilterFunc ff) = true ∧
    isPanic (c.WithEnqueueFunc ef) = true ∧
    isPanic (c.WithHandlerFunc hf) = true ∧
    isPanic (c.WithHandlerContextFunc hcf) = true ∧
    isPanic (c.WithLeaderElection a b d) = true ∧
    c.WithCacheSynced ps = { c with informersSynced := c.informersSynced ++ ps } ∧
    (∀ (c' : Controller Obj Key) (m : Int), m < 0 →
      isPanic (c'.WithWorkers m) = true) := by
  refine ⟨?_, ?_, ?_, ?_, ?_, ?_, ?_, rfl, ?_⟩ <;>
    simp [Controller.WithWorkers, Controller.WithQueue,
      Controller.WithEnqueueFilterFunc, Controller.WithEnqueueFunc,
      Controller.WithHandlerFunc, Controller.WithHandlerContextFunc,
      Controller.WithLeaderElection, Controller.WithCacheSynced, isPanic, h]
  intro c' m hm
  by_cases hc' : c'.runFlag <;>
    simp [Controller.WithWorkers, isPanic, hc', hm, not_le.mpr hm]

/-- Witness for the amended C2 at a concrete running controller, plus
the negative-count case on a fresh controller. -/
theorem builders_fail_when_running_witness :
    ({ NewController "c" with runFlag := true } : Controller K8sObject String).runFlag = true ∧
    isPanic (Controller.WithWorkers { NewController "c" with runFlag := true } 3) = true ∧
    isPanic (Controller.WithWorkers (NewController "c") (-1)) = true := by
  have hmain := builders_fail_when_running
    ({ NewController "c" with runFlag := true } : Controller K8sObject String) rfl
    3 { dirty := [], shutDown := false } none none none none 30 20 10 []
  exact ⟨rfl, hmain.1, hmain.2.2.2.2.2.2.2.2 (NewController "c") (-1) (by decide)⟩

theorem applyEnqueueFilterFunc_calls_once {Obj Key : Type}
    (c : Controller Obj Key) (f : EnqueueFilterFunc Obj)
    (hf : c.enqueueFilterFunc = some f) (oldObj newObj : Option Obj) :
    (c.applyEnqueueFilterFunc oldObj newObj .added).2 = [(none, newObj)] ∧
    (c.applyEnqueueFilterFunc oldObj newObj .updated).2 = [(oldObj, newObj)] ∧
    (c.applyEnqueueFilterFunc oldObj newObj .deleted).2 = [(oldObj, none)] := by
  refine ⟨?_, ?_, ?_⟩ <;>
    simp only [Controller.applyEnqueueFilterFunc, hf] <;>
    [rcases f none newObj with ⟨ok, err⟩;
     rcases f oldObj newObj with ⟨ok, err⟩;
     rcases f oldObj none with ⟨ok, err⟩] <;>
    cases err <;> rfl

theorem onAdd_calls (c : Controller Obj Key) [DecidableEq Key] (obj : Obj) :
    (c.OnAdd obj).2.1 = (c.applyEnqueueFilterFunc none (some obj) .added).2 := by
  rcases happ : c.applyEnqueueFilterFunc none (some obj) .added with ⟨adm, calls⟩
  cases adm <;> simp [Controller.OnAdd, happ]

theorem onUpdate_calls (c : Controller Obj Key) [DecidableEq Key] (oldObj newObj : Obj) :
    (c.OnUpdate oldObj newObj).2.1 =
      (c.applyEnqueueFilterFunc (some oldObj) (some newObj) .updated).2 := by
  rcases happ : c.applyEnqueueFilterFunc (some oldObj) (some newObj) .updated with ⟨adm, calls⟩
  cases adm <;> simp [Controller.OnUpdate, happ]

theorem onDelete_calls (c : Controller Obj Key) [DecidableEq Key] (obj : Obj) :
    (c.OnDelete obj).2.1 = (c.applyEnqueueFilterFunc (some obj) none .deleted).2 := by
  rcases happ : c.applyEnqueueFilterFunc (some obj) none .deleted with ⟨adm, calls⟩
  cases adm <;> simp [Controller.OnDelete, happ]

/-- Claim C4: through the event-admission adapter, a configured filter
is invoked exactly once per event with (nil, new) on add, (old, nil) on
delete and (old, new) on update; with no filter configured every event
is admitted; and a filter error drops the event — the controller (hence
the queue) is left unchanged, no enqueue happens, and no error is
propagated (the hooks are total and return no error). -/
theorem filter_admission_per_event {Obj Key : Type} [DecidableEq Key]
    (c : Controller Obj Key) (oldObj newObj obj : Obj) :
    (∀ f, c.enqueueFilterFunc = some f →
      (c.OnAdd obj).2.1 = [(none, some obj)] ∧
      (c.OnUpdate oldObj newObj).2.1 = [(some oldObj, some newObj)] ∧
      (c.OnDelete obj).2.1 = [(some obj, none)]) ∧
    (c.enqueueFilterFunc = none →
      (c.OnAdd obj).2.2 = true ∧
      (c.OnUpdate oldObj newObj).2.2 = true ∧
      (c.OnDelete obj).2.2 = true) ∧
    (∀ f e b, c.enqueueFilterFunc = some f →
      (f none (some obj) = (b, some e) →
        c.OnAdd obj = (c, [(none, some obj)], false)) ∧
      (f (some oldObj) (some newObj) = (b, some e) →
        c.OnUpdate oldObj newObj = (c, [(some oldObj, some newObj)], false)) ∧
      (f (some obj) none = (b, some e) →
        c.OnDelete obj = (c, [(some obj, none)], false))) := by
  refine ⟨?_, ?_, ?_⟩
  · intro f hf
    refine ⟨?_, ?_, ?_⟩
    · rw [onAdd_calls]
      exact (applyEnqueueFilterFunc_calls_once c f hf none (some obj)).1
    · rw [onUpdate_calls]
      exact (applyEnqueueFilterFunc_calls_once c f hf (some oldObj) (some newObj)).2.1
    · rw [onDelete_calls]
      exact (applyEnqueueFilterFunc_calls_once c f hf (some obj) none).2.2
  · intro hnone
    refine ⟨?_, ?_, ?_⟩ <;>
      simp [Controller.OnAdd, Controller.OnUpdate, Controller.OnDelete,
        Controller.applyEnqueueFilterFunc, hnone]
  · intro f e b hf
    refine ⟨?_, ?_, ?_⟩ <;> intro hres <;>
      simp [Controller.OnAdd, Controller.OnUpdate, Controller.OnDelete,
        Controller.applyEnqueueFilterFunc, hf, hres]

/-- Witness for C4 at a concrete controller whose filter always errors:
the add event is dropped with the single filter invocation recorded and
the controller unchanged. -/
theorem filter_admission_per_event_witness :
    ({ NewController "f" with
        enqueueFilterFunc :=
          some fun _ _ => (true, some ⟨false, "bad"⟩) } : Controller K8sObject String).OnAdd
        ⟨"ns", "a"⟩ =
      ({ NewController "f" with
          enqueueFilterFunc :=
            some fun _ _ => (true, some ⟨false, "bad"⟩) }, [(none, some ⟨"ns", "a"⟩)], false) :=
  (((filter_admission_per_event
      ({ NewController "f" with
          enqueueFilterFunc := some fun _ _ => (true, some ⟨false, "bad"⟩) } :
        Controller K8sObject String)
      ⟨"o", "o"⟩ ⟨"n", "n"⟩ ⟨"ns", "a"⟩).2.2
    (fun _ _ => (true, some ⟨false, "bad"⟩)) ⟨false, "bad"⟩ true rfl).1) rfl

theorem run_fst (c : Controller Obj Key) (t : Nat) :
    (c.run t).1 = { c with runFlag := true, runCount := c.runCount + 1 } := by
  by_cases hw : waitForCacheSync c.informersSynced t 0 <;>
    simp [Controller.run, hw]

theorem enqueue_runFlag [DecidableEq Key] (c : Controller Obj Key) (o : Obj) :
    (c.Enqueue o).1.runFlag = c.runFlag := by
  cases h' : c.enqueueFunc o <;> simp [Controller.Enqueue, h']

/-- Claim C3: with a handler set and the once-guard unconsumed, the
first `Run` call performs work and consumes the guard; every later
`Run` call on the resulting controller is a no-op returning the
controller (and queue) unchanged with no events; and without leader
election the protected section has run exactly once more. -/
theorem Run_first_call_once {Obj Key : Type} (c : Controller Obj Key) (t : Nat)
    (h1 : c.handlerContextFunc.isSome = true) (h2 : c.onceDone = false) :
    ∃ c₁ evs, c.Run t = .ok (c₁, evs) ∧
      c₁.onceDone = true ∧
      (∀ u, c₁.Run u = .ok (c₁, [])) ∧
      (c.le = false → c₁.runCount = c.runCount + 1) := by
  obtain ⟨f, hf⟩ := Option.isSome_iff_exists.mp h1
  cases hle : c.le with
  | true =>
    refine ⟨({ c with onceDone := true } : Controller Obj Key).shutQueue,
      [RunEvent.leaderElectionLoop], ?_, ?_, ?_, ?_⟩
    · simp [Controller.Run, hf, h2, hle]
    · simp [Controller.shutQueue]
    · intro u
      have e1 : (({ c with onceDone := true } : Controller Obj Key).shutQueue).handlerContextFunc
          = some f := by
        simp [Controller.shutQueue, hf]
      have e2 : (({ c with onceDone := true } : Controller Obj Key).shutQueue).onceDone
          = true := by
        simp [Controller.shutQueue]
      simp [Controller.Run, e1, e2, shutQueue_shutQueue]
    · intro hc
      simp [hle] at hc
  | false =>
    refine ⟨((Controller.run { c with onceDone := true } t).1).shutQueue,
      (Controller.run { c with onceDone := true } t).2, ?_, ?_, ?_, ?_⟩
    · simp [Controller.Run, hf, h2, hle]
    · simp [run_fst, Controller.shutQueue]
    · intro u
      have e1 : (((Controller.run { c with onceDone := true } t).1).shutQueue).handlerContextFunc
          = some f := by
        simp [run_fst, Controller.shutQueue, hf]
      have e2 : (((Controller.run { c with onceDone := true } t).1).shutQueue).onceDone
          = true := by
        simp [run_fst, Controller.shutQueue]
      simp [Controller.Run, e1, e2, shutQueue_shutQueue]
    · intro _
      simp [run_fst, Controller.shutQueue]

/-- Witness for C3 at a concrete configured controller. -/
theorem Run_first_call_once_witness :
    ({ NewController "r" with
        handlerContextFunc := some fun _ _ => (none, none) } :
      Controller K8sObject String).handlerContextFunc.isSome = true ∧
    ∃ c₁ evs,
      Controller.Run { NewController "r" with
          handlerContextFunc := some fun _ _ => (none, none) } 2 = .ok (c₁, evs) ∧
      c₁.onceDone = true ∧
      (∀ u, c₁.Run u = .ok (c₁, [])) ∧
      (({ NewController "r" with
          handlerContextFunc := some fun _ _ => (none, none) } :
        Controller K8sObject String).le = false →
        c₁.runCount = ({ NewController "r" with
          handlerContextFunc := some fun _ _ => (none, none) } :
        Controller K8sObject String).runCount + 1) :=
  ⟨rfl,
    Run_first_call_once
      ({ NewController "r" with handlerContextFunc := some fun _ _ => (none, none) } :
        Controller K8sObject String) 2 rfl rfl⟩

theorem waitForCacheSync_false_of_never (preds : List (Nat → Bool)) :
    ∀ (fuel t : Nat),
      (∀ k, k < fuel → (preds.all fun p => p (t + k)) = false) →
      waitForCacheSync preds fuel t = false := by
  intro fuel
  induction fuel with
  | zero => intro t _; rfl
  | succ n ih =>
    intro t h
    have h0 : (preds.all fun p => p t) = false := by
      simpa using h 0 (Nat.succ_pos n)
    have hrest : ∀ k, k < n → (preds.all fun p => p (t + 1 + k)) = false := by
      intro k hk
      have := h (k + 1) (Nat.succ_lt_succ hk)
      simpa [Nat.add_assoc, Nat.add_comm, Nat.add_left_comm] using this
    simp [waitForCacheSync, h0]
    exact ih (t + 1) hrest

/-- Claim C6: if the cancellation fires before the configured readiness
predicates ever all report synced, the protected run section aborts
with no worker started; and, for every run, a worker-start event occurs
only when the cache-sync wait succeeded. -/
theorem run_cancelled_starts_no_worker {Obj Key : Type}
    (c : Controller Obj Key) (cancelAt : Nat)
    (h : ∀ t, t < cancelAt → (c.informersSynced.all fun p => p t) = false) :
    (c.run cancelAt).2 = [] ∧
    (∀ (c' : Controller Obj Key) (u i : Nat),
      RunEvent.startWorker i ∈ (c'.run u).2 →
      waitForCacheSync c'.informersSynced u 0 = true) := by
  constructor
  · have hw : waitForCacheSync c.informersSynced cancelAt 0 = false := by
      apply waitForCacheSync_false_of_never
      intro k hk
      simpa using h k hk
    simp [Controller.run, hw]
  · intro c' u i hmem
    by_cases hw : waitForCacheSync c'.informersSynced u 0
    · exact hw
    · simp [Controller.run, hw] at hmem

/-- Witness for C6: a single never-true readiness predicate with
cancellation at step 3 yields an empty run trace. -/
theorem run_cancelled_starts_no_worker_witness :
    (∀ t, t < 3 →
      (({ NewController "g" with informersSynced := [fun _ => false] } :
        Controller K8sObject String).informersSynced.all fun p => p t) = false) ∧
    (Controller.run
      ({ NewController "g" with informersSynced := [fun _ => false] } :
        Controller K8sObject String) 3).2 = [] :=
  ⟨by decide,
    (run_cancelled_starts_no_worker
      ({ NewController "g" with informersSynced := [fun _ => false] } :
        Controller K8sObject String) 3 (by decide)).1⟩

/-- Claim C7: calling `Run` on a controller with no handler set fails
fatally at call time; while mere construction and configuration without
a handler raises no error — `NewController` leaves the handler unset
and the builder methods succeed on the fresh controller. -/
theorem run_without_handler_fatal {Obj Key : Type}
    (c : Controller Obj Key) (t : Nat)
    (h : c.handlerContextFunc = none)
    (name : String) (n : Int) (hn : 0 ≤ n)
    (q : QueueState String) (ef : Option (EnqueueFunc K8sObject String))
    (ff : Option (EnqueueFilterFunc K8sObject))
    (ps : List (Nat → Bool)) :
    isPanic (c.Run t) = true ∧
    (NewController name).handlerContextFunc = none ∧
    isPanic ((NewController name).WithWorkers n) = false ∧
    isPanic ((NewController name).WithQueue q) = false ∧
    isPanic ((NewController name).WithEnqueueFunc ef) = false ∧
    isPanic ((NewController name).WithEnqueueFilterFunc ff) = false ∧
    ((NewController name).WithCacheSynced ps).handlerContextFunc = none := by
  refine ⟨?_, rfl, ?_, rfl, ?_, rfl, rfl⟩
  · simp [Controller.Run, h, isPanic]
  · simp [Controller.WithWorkers, NewController, isPanic, not_lt.mpr hn]
  · cases ef <;> rfl

/-- Witness for C7 at a concrete handler-less controller. -/
theorem run_without_handler_fatal_witness :
    (NewController "x").handlerContextFunc = none ∧
    isPanic ((NewController "x").Run 0) = true ∧
    isPanic ((NewController "x").WithWorkers 3) = false :=
  ⟨rfl,
    (run_without_handler_fatal (NewController "x") 0 rfl "x" 3 (by decide)
      { dirty := [], shutDown := false } none none []).1,
    (run_without_handler_fatal (NewController "x") 0 rfl "x" 3 (by decide)
      { dirty := [], shutDown := false } none none []).2.2.1⟩

/-- Claim C10: the running flag is monotone — entering the protected
run section sets it, and no operation of the controller resets it: on a
controller whose flag is set, every guarded builder still fails
fatally, `WithCacheSynced`, `Enqueue`, the event hooks, `run` and `Run`
all preserve the set flag. -/
theorem runFlag_monotone {Obj Key : Type} [DecidableEq Key]
    (c c₀ c₂ : Controller Obj Key) (h : c.runFlag = true)
    (t u : Nat) (n : Int) (q : QueueState Key)
    (ff : Option (EnqueueFilterFunc Obj)) (ef : Option (EnqueueFunc Obj Key))
    (hf : Option (HandlerFunc Key)) (hcf : Option (HandlerContextFunc Key))
    (a b d : Nat) (ps : List (Nat → Bool)) (o o' : Obj)
    (evs : List RunEvent) :
    (c₀.run u).1.runFlag = true ∧
    isPanic (c.WithWorkers n) = true ∧
    isPanic (c.WithQueue q) = true ∧
    isPanic (c.WithEnqueueFilterFunc ff) = true ∧
    isPanic (c.WithEnqueueFunc ef) = true ∧
    isPanic (c.WithHandlerFunc hf) = true ∧
    isPanic (c.WithHandlerContextFunc hcf) = true ∧
    isPanic (c.WithLeaderElection a b d) = true ∧
    (c.WithCacheSynced ps).runFlag = true ∧
    (c.Enqueue o).1.runFlag = true ∧
    (c.run t).1.runFlag = true ∧
    (c.Run t = .ok (c₂, evs) → c₂.runFlag = true) ∧
    (c.OnAdd o).1.runFlag = true ∧
    (c.OnUpdate o o').1.runFlag = true ∧
    (c.OnDelete o).1.runFlag = true := by
  refine ⟨?_, ?_, ?_, ?_, ?_, ?_, ?_, ?_, ?_, ?_, ?_, ?_, ?_, ?_, ?_⟩
  · simp [run_fst]
  · simp [Controller.WithWorkers, isPanic, h]
  · simp [Controller.WithQueue, isPanic, h]
  · simp [Controller.WithEnqueueFilterFunc, isPanic, h]
  · simp [Controller.WithEnqueueFunc, isPanic, h]
  · simp [Controller.WithHandlerFunc, isPanic, h]
  · simp [Controller.WithHandlerContextFunc, isPanic, h]
  · simp [Controller.WithLeaderElection, isPanic, h]
  · simp [Controller.WithCacheSynced, h]
  · rw [enqueue_runFlag]; exact h
  · simp [run_fst]
  · intro hr
    cases hh : c.handlerContextFunc with
    | none => simp [Controller.Run, hh] at hr
    | some f =>
      by_cases ho : c.onceDone = true <;> by_cases hle : c.le = true <;>
        simp [Controller.Run, hh, ho, hle] at hr <;>
        obtain ⟨hc₂, -⟩ := hr <;>
        simp [← hc₂, Controller.shutQueue, run_fst, h]
  · rcases happ : c.applyEnqueueFilterFunc none (some o) .added with ⟨adm, calls⟩
    cases adm <;> simp [Controller.OnAdd, happ, enqueue_runFlag, h]
  · rcases happ : c.applyEnqueueFilterFunc (some o) (some o') .updated with ⟨adm, calls⟩
    cases adm <;> simp [Controller.OnUpdate, happ, enqueue_runFlag, h]
  · rcases happ : c.applyEnqueueFilterFunc (some o) none .deleted with ⟨adm, calls⟩
    cases adm <;> simp [Controller.OnDelete, happ, enqueue_runFlag, h]

/-- Witness for C10 at a concrete running controller. -/
theorem runFlag_monotone_witness :
    ({ NewController "m" with runFlag := true } :
      Controller K8sObject String).runFlag = true ∧
    isPanic (Controller.WithWorkers
      { NewController "m" with runFlag := true } 5) = true ∧
    (Controller.WithCacheSynced
      { NewController "m" with runFlag := true } [fun _ => true]).runFlag = true := by
  have hmain := runFlag_monotone
    ({ NewController "m" with runFlag := true } : Controller K8sObject String)
    (NewController "m") (NewController "m") rfl
    0 0 5 { dirty := [], shutDown := false } none none none none 30 20 10
    [fun _ => true] ⟨"ns", "a"⟩ ⟨"ns", "b"⟩ []
  exact ⟨rfl, hmain.2.1, hmain.2.2.2.2.2.2.2.2.1⟩
